import Mathlib

/-!
Verification development for the Warm Pulse Arcade mini-game collection
(src/src/App.tsx). The definitions below are shallow embeddings of the
functions and per-frame update rules of the source; real-valued quantities
of the source are modelled as rationals, integer scores and token counts
as integers.
-/

namespace WarmPulse

/-- Utility clamp (App.tsx line 10): Math.max(a, Math.min(b, v)). -/
def clamp (v a b : ℚ) : ℚ := max a (min b v)

/-- Utility rand (App.tsx line 14): Math.random() * (max - min) + min, with
r standing for the Math.random() draw, which lies in [0, 1). -/
def rand (lo hi r : ℚ) : ℚ := r * (hi - lo) + lo

/-- The seven game keys (App.tsx line 652). -/
inductive GameKey
  | pulse
  | heat
  | tension
  | echo
  | pressure
  | ascend
  | heart
deriving DecidableEq, Repr

/-- The best-score record: one integer per game key (App.tsx 672, the
Record GameKey number field of SaveState). -/
structure Best where
  pulse : ℤ
  heat : ℤ
  tension : ℤ
  echo : ℤ
  pressure : ℤ
  ascend : ℤ
  heart : ℤ
deriving DecidableEq, Repr

/-- Field lookup best[k]. -/
def Best.get (b : Best) : GameKey → ℤ
  | .pulse => b.pulse
  | .heat => b.heat
  | .tension => b.tension
  | .echo => b.echo
  | .pressure => b.pressure
  | .ascend => b.ascend
  | .heart => b.heart

/-- The persisted SaveState (App.tsx 669-673): tokens, palette key, best map. -/
structure SaveState where
  tokens : ℤ
  palette : String
  best : Best
deriving DecidableEq, Repr

/-- spend (App.tsx 716): setState(s => ({...s, tokens: Math.max(0, s.tokens - n)})). -/
def spend (n : ℤ) (s : SaveState) : SaveState :=
  { s with tokens := max 0 (s.tokens - n) }

/-- award (App.tsx 699): setState(s => ({...s, tokens: s.tokens + Math.max(0, n)})). -/
def award (n : ℤ) (s : SaveState) : SaveState :=
  { s with tokens := s.tokens + max 0 n }

/-- The best-score update performed by onExit (App.tsx 702):
best[k] := Math.max(best[k], gscore). -/
def recordBest (b : Best) (k : GameKey) (score : ℤ) : Best :=
  match k with
  | .pulse => { b with pulse := max b.pulse score }
  | .heat => { b with heat := max b.heat score }
  | .tension => { b with tension := max b.tension score }
  | .echo => { b with echo := max b.echo score }
  | .pressure => { b with pressure := max b.pressure score }
  | .ascend => { b with ascend := max b.ascend score }
  | .heart => { b with heart := max b.heart score }

/-- Concrete store state used to exhibit the behaviour of spend on an
insufficient balance: 5 tokens. -/
def lowBalance : SaveState := ⟨5, "aurora", ⟨0, 0, 0, 0, 0, 0, 0⟩⟩

/-- C1 counterexample: with 5 tokens, spend(20) is not refused; it sets the
balance to 0, so the state is changed, contradicting the claim that an
insufficient spend leaves the ProgressionRecord state entirely unchanged. -/
theorem spend_insufficient_changes_state :
    (spend 20 lowBalance).tokens = 0 ∧ lowBalance.tokens = 5 ∧
      spend 20 lowBalance ≠ lowBalance := by
  refine ⟨rfl, rfl, ?_⟩
  intro h
  exact absurd (congrArg SaveState.tokens h) (by decide)

/-- C1 (amended): spend(n) never reduces tokens below 0; the new balance is
exactly max(0, tokens - n), so a sufficient balance decreases by exactly n
while an insufficient balance is clamped to 0 rather than refused, and the
palette and best-score fields are left unchanged in every case. -/
theorem spend_clamps_at_zero (n : ℤ) (s : SaveState) :
    0 ≤ (spend n s).tokens ∧
    (spend n s).tokens = max 0 (s.tokens - n) ∧
    (n ≤ s.tokens → (spend n s).tokens = s.tokens - n) ∧
    (spend n s).palette = s.palette ∧
    (spend n s).best = s.best := by
  refine ⟨le_max_left _ _, rfl, ?_, rfl, rfl⟩
  intro h
  simp [spend, max_eq_right (sub_nonneg.mpr h)]

/-- Witness for spend_clamps_at_zero at a concrete sufficient balance. -/
theorem spend_clamps_at_zero_witness :
    (spend 3 lowBalance).tokens = lowBalance.tokens - 3 :=
  (spend_clamps_at_zero 3 lowBalance).2.2.1 (by decide)

/-- C3: the best-score settlement is a monotonic ratchet: the stored best
becomes max(old, score), so it is unchanged when the score does not exceed
it, updated exactly to the score when the score is strictly greater, and a
whole sequence of non-increasing (in fact, non-exceeding) scores leaves the
record unchanged. -/
theorem recordBest_ratchet (b : Best) (k : GameKey) (s : ℤ) (scores : List ℤ) :
    (recordBest b k s).get k = max (b.get k) s ∧
    (s ≤ b.get k → recordBest b k s = b) ∧
    (b.get k < s → (recordBest b k s).get k = s) ∧
    ((∀ x ∈ scores, x ≤ b.get k) →
      scores.foldl (fun acc x => recordBest acc k x) b = b) := by
  have hget : ∀ (b : Best), (recordBest b k s).get k = max (b.get k) s := by
    intro b; cases k <;> rfl
  have hid : ∀ (b' : Best) (x : ℤ), x ≤ b'.get k → recordBest b' k x = b' := by
    intro b' x hx
    cases b'
    cases k <;> simp_all [recordBest, Best.get, max_eq_left hx]
  refine ⟨hget b, hid b s, ?_, ?_⟩
  · intro hlt
    rw [hget b]
    exact max_eq_right hlt.le
  · intro hall
    induction scores with
    | nil => rfl
    | cons x xs ih =>
      simp only [List.foldl_cons]
      rw [hid b x (hall x (List.mem_cons_self x xs))]
      exact ih (fun y hy => hall y (List.mem_cons_of_mem x hy))

/-- Concrete best record used as witness input: every best score is 3. -/
def allThrees : Best := ⟨3, 3, 3, 3, 3, 3, 3⟩

/-- Witness for recordBest_ratchet: a strictly greater score updates the
stored best, and a run of non-exceeding scores leaves the record unchanged. -/
theorem recordBest_ratchet_witness :
    (recordBest allThrees .pulse 5).get .pulse = 5 ∧
      List.foldl (fun acc x => recordBest acc .pulse x) allThrees [3, 2, 1] =
        allThrees :=
  ⟨(recordBest_ratchet allThrees .pulse 5 [3, 2, 1]).2.2.1 (by decide),
   (recordBest_ratchet allThrees .pulse 5 [3, 2, 1]).2.2.2 (by decide)⟩

/-- The shared accuracy computation, inlined at each scoring site of the
source (App.tsx 187, 404, 608 and 616): 1 - clamp(err / tolerance, 0, 1). -/
def accuracyFromError (err tolerance : ℚ) : ℚ :=
  1 - clamp (err / tolerance) 0 1

lemma clamp01_nonneg (v : ℚ) : 0 ≤ clamp v 0 1 := le_max_left _ _

lemma clamp01_le_one (v : ℚ) : clamp v 0 1 ≤ 1 :=
  max_le zero_le_one (min_le_left _ _)

lemma clamp_mono {v w : ℚ} (a b : ℚ) (h : v ≤ w) : clamp v a b ≤ clamp w a b :=
  max_le_max le_rfl (min_le_min le_rfl h)

lemma accuracyFromError_nonneg (err tol : ℚ) : 0 ≤ accuracyFromError err tol := by
  have := clamp01_le_one (err / tol)
  unfold accuracyFromError
  linarith

lemma accuracyFromError_le_one (err tol : ℚ) : accuracyFromError err tol ≤ 1 := by
  have := clamp01_nonneg (err / tol)
  unfold accuracyFromError
  linarith

/-- C5: for err ≥ 0 and tolerance > 0 the shared accuracy primitive lies in
[0, 1], equals 1 at zero error, equals 0 once the error reaches the
tolerance, and is monotonically non-increasing in the error. -/
theorem accuracyFromError_spec (err err' tol : ℚ) (herr : 0 ≤ err)
    (htol : 0 < tol) :
    0 ≤ accuracyFromError err tol ∧
    accuracyFromError err tol ≤ 1 ∧
    (err = 0 → accuracyFromError err tol = 1) ∧
    (tol ≤ err → accuracyFromError err tol = 0) ∧
    (err ≤ err' → accuracyFromError err' tol ≤ accuracyFromError err tol) := by
  refine ⟨accuracyFromError_nonneg err tol, accuracyFromError_le_one err tol,
    ?_, ?_, ?_⟩
  · intro h0
    subst h0
    simp [accuracyFromError, clamp, zero_div]
  · intro hge
    have h1 : (1 : ℚ) ≤ err / tol := (one_le_div htol).mpr hge
    have : clamp (err / tol) 0 1 = 1 := by
      unfold clamp
      rw [min_eq_left h1, max_eq_right zero_le_one]
    simp [accuracyFromError, this]
  · intro hle
    have hdiv : err / tol ≤ err' / tol := by gcongr
    have := clamp_mono 0 1 hdiv
    unfold accuracyFromError
    linarith

/-- Witness for accuracyFromError_spec at err = 2, err' = 5, tolerance = 4. -/
theorem accuracyFromError_spec_witness :
    accuracyFromError 5 4 ≤ accuracyFromError 2 4 ∧ accuracyFromError 2 4 ≤ 1 :=
  ⟨(accuracyFromError_spec 2 5 4 (by decide) (by decide)).2.2.2.2 (by decide),
   (accuracyFromError_spec 2 5 4 (by decide) (by decide)).2.1⟩

/-- JS remainder a % b for the non-negative numerators and positive
denominators in which the source uses it: a - b * floor(a / b). -/
def jsMod (a b : ℚ) : ℚ := a - b * ⌊a / b⌋

/-- PulseLink tap gain (App.tsx 181-189): the tap error against the nearest
beat, converted through the shared accuracy shape and scaled to 10 points. -/
def pulseTapGain (t beatAt interval : ℚ) : ℤ :=
  let d := jsMod |t - beatAt| interval
  let err := min d (interval - d)
  let acc := 1 - clamp (err / (interval / 2)) 0 1
  round (acc * 10)

/-- TensionLine release points (App.tsx 320-324):
Math.max(0, Math.round(12 - err * 40)) with err = |len - target|. -/
def tensionReleasePts (len target : ℚ) : ℤ :=
  let err := |len - target|
  max 0 (round ((12 : ℚ) - err * 40))

/-- EchoOrb tap points (App.tsx 401-405): err = |d - intervalMs| with d the
gap between the two tap timestamps, accuracy against tolerance 800,
scaled to 12 points. -/
def echoTapPts (t1 t2 intervalMs : ℚ) : ℤ :=
  let d := |t2 - t1|
  let err := |d - intervalMs|
  let acc := 1 - clamp (err / 800) 0 1
  round (acc * 12)

/-- Heartbeat sync-phase tap points (App.tsx 613-617): interval from the
calibrated bpm (60 substituted when bpm is 0, the JS bpm || 60), phase error
folded to the nearest beat, accuracy scaled to 10 points. -/
def heartTapPts (tNow bpm : ℚ) : ℤ :=
  let interval := 60000 / (if bpm = 0 then 60 else bpm)
  let d := jsMod tNow interval
  let err := min d (interval - d)
  let acc := 1 - clamp (err / (interval / 2)) 0 1
  round (acc * 10)

/-- The score-mutating events of the seven variants, with the raw inputs
each handler reads from the session. -/
inductive ScoreEvent
  | pulseTap (t beatAt interval : ℚ)
  | heatBloomSuccess
  | heatOverheat
  | tensionRelease (len target : ℚ)
  | echoTap (t1 t2 intervalMs : ℚ)
  | pressureForge
  | pressureMiss
  | ascendZone
  | heartTap (tNow bpm : ℚ)

/-- The score update each event performs in the source: PulseLink tap gain
(App.tsx 189), HeatBloom +10 success (248) and Math.max(0, s-3) overheat
(260), TensionLine release (324), EchoOrb tap (406), PressureCraft +12
forge (469) and Math.max(0, s-4) miss (474), AscendLight +1 per in-zone
frame (537), Heartbeat sync tap (618). -/
def scoreStep (s : ℤ) : ScoreEvent → ℤ
  | .pulseTap t beatAt interval => s + pulseTapGain t beatAt interval
  | .heatBloomSuccess => s + 10
  | .heatOverheat => max 0 (s - 3)
  | .tensionRelease len target => s + tensionReleasePts len target
  | .echoTap t1 t2 intervalMs => s + echoTapPts t1 t2 intervalMs
  | .pressureForge => s + 12
  | .pressureMiss => max 0 (s - 4)
  | .ascendZone => s + 1
  | .heartTap tNow bpm => s + heartTapPts tNow bpm

lemma round_nonneg_of_nonneg {x : ℚ} (h : 0 ≤ x) : 0 ≤ round x := by
  rw [round_eq]
  exact Int.le_floor.mpr (by push_cast; linarith)

lemma acc_scale_round_nonneg (v k : ℚ) (hk : 0 ≤ k) :
    0 ≤ round ((1 - clamp v 0 1) * k) := by
  have h1 : clamp v 0 1 ≤ 1 := clamp01_le_one v
  exact round_nonneg_of_nonneg (mul_nonneg (by linarith) hk)

lemma scoreStep_nonneg (s : ℤ) (e : ScoreEvent) (hs : 0 ≤ s) :
    0 ≤ scoreStep s e := by
  cases e with
  | pulseTap t beatAt interval =>
    exact add_nonneg hs (acc_scale_round_nonneg _ 10 (by norm_num))
  | heatBloomSuccess => exact add_nonneg hs (by norm_num)
  | heatOverheat => exact le_max_left _ _
  | tensionRelease len target => exact add_nonneg hs (le_max_left _ _)
  | echoTap t1 t2 intervalMs =>
    exact add_nonneg hs (acc_scale_round_nonneg _ 12 (by norm_num))
  | pressureForge => exact add_nonneg hs (by norm_num)
  | pressureMiss => exact le_max_left _ _
  | ascendZone => exact add_nonneg hs (by norm_num)
  | heartTap tNow bpm =>
    exact add_nonneg hs (acc_scale_round_nonneg _ 10 (by norm_num))

lemma scoreFold_nonneg (s : ℤ) (hs : 0 ≤ s) (evs : List ScoreEvent) :
    0 ≤ evs.foldl scoreStep s := by
  induction evs generalizing s with
  | nil => exact hs
  | cons e es ih => exact ih _ (scoreStep_nonneg s e hs)

/-- C4: starting from 0, after any sequence of score events of any variant
the session score (an integer by construction) is ≥ 0: every increment is a
non-negative integer and the HeatBloom (-3) and PressureCraft (-4)
penalties are floored at 0, so no observation point sees a negative score. -/
theorem score_never_negative (evs : List ScoreEvent) :
    0 ≤ evs.foldl scoreStep 0 :=
  scoreFold_nonneg 0 le_rfl evs

/-- What the persisted-store read can yield: the getItem call throwing,
returning null (key absent), or returning a string. -/
inductive StoredRead
  | throws
  | absent
  | present (txt : String)

/-- The default record returned by loadState (App.tsx 680): tokens 0,
palette PALETTES[0].key = aurora, all seven best scores 0. -/
def defaultSave : SaveState :=
  { tokens := 0, palette := "aurora", best := ⟨0, 0, 0, 0, 0, 0, 0⟩ }

/-- loadState (App.tsx 675-681). The source wraps the read and the
JSON.parse in try/catch and falls through to the default record, so the
embedding is total: a throwing read maps to StoredRead.throws, a throwing
parse to the parse function returning none, and the empty string (falsy in
the if (txt) test) also falls through to the default. -/
def loadState (read : StoredRead) (parse : String → Option SaveState) :
    SaveState :=
  match read with
  | .throws => defaultSave
  | .absent => defaultSave
  | .present txt =>
    if txt = "" then defaultSave
    else
      match parse txt with
      | some s => s
      | none => defaultSave

/-- C6: loading the persisted state never throws (the embedding is total by
construction, mirroring the try/catch of the source), and every missing,
unreadable or unparsable stored value yields exactly the documented default
record: tokens 0, the default palette key, and all seven best scores 0. -/
theorem loadState_defaults (read : StoredRead) (parse : String → Option SaveState)
    (h : read = .throws ∨ read = .absent ∨
      ∃ txt, read = .present txt ∧ (txt = "" ∨ parse txt = none)) :
    loadState read parse = defaultSave ∧
      defaultSave.tokens = 0 ∧ defaultSave.palette = "aurora" ∧
      (∀ k, defaultSave.best.get k = 0) := by
  refine ⟨?_, rfl, rfl, fun k => by cases k <;> rfl⟩
  rcases h with h | h | ⟨txt, hr, htxt⟩
  · subst h; rfl
  · subst h; rfl
  · subst hr
    rcases htxt with h0 | hparse
    · simp [loadState, h0]
    · by_cases he : txt = ""
      · simp [loadState, he]
      · simp [loadState, he, hparse]

/-- Witness for loadState_defaults: a stored string that fails to parse
yields the default record. -/
theorem loadState_defaults_witness :
    loadState (.present "garbage") (fun _ => none) = defaultSave :=
  (loadState_defaults (.present "garbage") (fun _ => none)
    (Or.inr (Or.inr ⟨"garbage", rfl, Or.inr rfl⟩))).1

/-- Heartbeat phases (App.tsx 588). -/
inductive HBPhase
  | cal
  | sync
deriving DecidableEq, Repr

/-- The Heartbeat state touched by calibration: phase, derived bpm, and the
recorded press-start timestamps. -/
structure HBState where
  phase : HBPhase
  bpm : ℚ
  taps : List ℚ
deriving DecidableEq, Repr

/-- Consecutive differences: taps.slice(1).map((t,i) => t - taps[i])
(App.tsx 607). -/
def consecDiffs : List ℚ → List ℚ
  | a :: b :: rest => (b - a) :: consecDiffs (b :: rest)
  | _ => []

/-- Mean inter-tap interval (App.tsx 608):
ds.reduce((a,b) => a+b, 0) / ds.length. -/
def meanInterval (taps : List ℚ) : ℚ :=
  let ds := consecDiffs taps
  ds.sum / ds.length

/-- The bpm candidate clamp(60000 / avg, 50, 150) of App.tsx 608 under the
number semantics of the source: for avg = 0 the division yields positive
infinity and the clamp returns 150, modelled by the explicit zero branch;
for avg ≠ 0 the rational division agrees with the expression. -/
def hbCandidate (avg : ℚ) : ℚ :=
  if avg = 0 then 150 else clamp (60000 / avg) 50 150

/-- The calibrate branch of the Heartbeat onTap handler (App.tsx 603-611):
push the timestamp; once at least 6 taps are recorded, derive the bpm from
the mean inter-tap interval, clear the taps and transition to sync. -/
def hbCalTap (s : HBState) (t : ℚ) : HBState :=
  let taps := s.taps ++ [t]
  if 6 ≤ taps.length then
    { phase := .sync, bpm := hbCandidate (meanInterval taps), taps := [] }
  else
    { s with taps := taps }

lemma hbCandidate_mem (avg : ℚ) :
    50 ≤ hbCandidate avg ∧ hbCandidate avg ≤ 150 := by
  unfold hbCandidate
  by_cases h : avg = 0
  · rw [if_pos h]
    norm_num
  · rw [if_neg h]
    exact ⟨le_max_left _ _, max_le (by norm_num) (min_le_left _ _)⟩

/-- C7: a calibrate tap that brings the recorded tap count to at least 6
transitions the phase to sync and sets bpm = clamp(60000 / meanInterval,
50, 150) of the mean inter-tap interval, which always lies in [50, 150];
for simultaneous taps (zero mean interval) the guarded division still
yields the clamped value 150 and no error propagates. -/
theorem heartbeat_calibration (s : HBState) (t : ℚ) (hphase : s.phase = .cal)
    (htaps : 5 ≤ s.taps.length) :
    (hbCalTap s t).phase = .sync ∧
    50 ≤ (hbCalTap s t).bpm ∧
    (hbCalTap s t).bpm ≤ 150 ∧
    (meanInterval (s.taps ++ [t]) ≠ 0 →
      (hbCalTap s t).bpm = clamp (60000 / meanInterval (s.taps ++ [t])) 50 150) ∧
    (meanInterval (s.taps ++ [t]) = 0 → (hbCalTap s t).bpm = 150) := by
  have hlen : 6 ≤ (s.taps ++ [t]).length := by
    rw [List.length_append, List.length_singleton]
    omega
  have hstep : hbCalTap s t =
      { phase := .sync, bpm := hbCandidate (meanInterval (s.taps ++ [t])),
        taps := [] } := by
    simp only [hbCalTap]
    rw [if_pos hlen]
  rw [hstep]
  refine ⟨rfl, (hbCandidate_mem _).1, (hbCandidate_mem _).2, ?_, ?_⟩
  · intro hne
    simp [hbCandidate, hne]
  · intro hz
    simp [hbCandidate, hz]

/-- Concrete calibrate state used as witness input: five taps 100ms apart. -/
def fiveTaps : HBState := ⟨.cal, 0, [0, 100, 200, 300, 400]⟩

/-- Witness for heartbeat_calibration: a sixth tap at 500ms yields phase
sync and bpm = clamp(60000 / 100, 50, 150) = 150. -/
theorem heartbeat_calibration_witness :
    (hbCalTap fiveTaps 500).phase = .sync ∧ (hbCalTap fiveTaps 500).bpm = 150 := by
  have h100 : meanInterval (fiveTaps.taps ++ [500]) = 100 := by
    norm_num [meanInterval, consecDiffs, fiveTaps]
  have hlen : 5 ≤ fiveTaps.taps.length := by norm_num [fiveTaps]
  refine ⟨(heartbeat_calibration fiveTaps 500 rfl hlen).1, ?_⟩
  have h := (heartbeat_calibration fiveTaps 500 rfl hlen).2.2.2.1
    (by rw [h100]; norm_num)
  rw [h, h100, show (60000 : ℚ) / 100 = 600 by norm_num]
  unfold clamp
  rw [min_eq_left (by norm_num), max_eq_right (by norm_num)]

/-- The variant-specific exit divisor: the award call of each exit control
passes Math.floor(score / k) with k = 5 for PulseLink (App.tsx 215) and
HeatBloom (301), 6 for TensionLine (367), EchoOrb (432), PressureCraft
(498) and Heartbeat (642), and 8 for AscendLight (578). -/
def exitDivisor : GameKey → ℤ
  | .pulse => 5
  | .heat => 5
  | .tension => 6
  | .echo => 6
  | .pressure => 6
  | .ascend => 8
  | .heart => 6

/-- The exit control handler of every variant: award(Math.floor(score / k))
runs first, then onExit(score), which ratchets the best score for the
variant key (App.tsx 215 together with 699-704). Math.floor of the integer
division is Int.fdiv. -/
def exitAndSave (k : GameKey) (score : ℤ) (s : SaveState) : SaveState :=
  let afterAward := award (Int.fdiv score (exitDivisor k)) s
  { afterAward with best := recordBest afterAward.best k score }

/-- C10: exiting a variant settles the session in one pass: the token
balance becomes tokens + max(0, floor(score / k)) — award never decreases
tokens since negative amounts are clamped to 0 — the best record is
ratcheted with the final score, and the divisor table is 5 for PulseLink
and HeatBloom, 6 for TensionLine, EchoOrb, PressureCraft and Heartbeat,
and 8 for AscendLight. -/
theorem exit_settlement (k : GameKey) (score n : ℤ) (s : SaveState) :
    exitAndSave k score s =
      { tokens := s.tokens + max 0 (Int.fdiv score (exitDivisor k)),
        palette := s.palette,
        best := recordBest s.best k score } ∧
    s.tokens ≤ (exitAndSave k score s).tokens ∧
    s.tokens ≤ (award n s).tokens ∧
    exitDivisor .pulse = 5 ∧ exitDivisor .heat = 5 ∧
    exitDivisor .tension = 6 ∧ exitDivisor .echo = 6 ∧
    exitDivisor .pressure = 6 ∧ exitDivisor .ascend = 8 ∧
    exitDivisor .heart = 6 := by
  refine ⟨rfl, ?_, ?_, rfl, rfl, rfl, rfl, rfl, rfl, rfl⟩
  · exact le_add_of_nonneg_right (le_max_left _ _)
  · exact le_add_of_nonneg_right (le_max_left _ _)

/-- The per-frame delta computation of the variant loops (App.tsx 236 in
HeatBloom, 338 in TensionLine, 451 in PressureCraft, 526 in AscendLight):
dt = (t - last) / 1000, with no maximum applied. -/
def frameDt (last t : ℚ) : ℚ := (t - last) / 1000

/-- One frame of the HeatBloom heat integration (App.tsx 238-240): heat
rises at 0.55/s while held, falls at 0.35/s otherwise, then is clamped to
[0, 1]. The dt argument is exactly the frameDt value; the loop feeds it in
unmodified. -/
def heatIntegrate (holding : Bool) (heat dt : ℚ) : ℚ :=
  clamp (if holding then heat + 0.55 * dt else heat - 0.35 * dt) 0 1

/-- C2 evaluation at the failing input: a 1000ms frame gap (last = 0,
t = 1000, e.g. a briefly backgrounded tab) produces dt = 1s, which exceeds
the claimed 0.1s cap, and that full dt is fed into the heat integration: a
single frame moves heat from 0 to 0.55, ten times the largest step a 0.1s
clamp would allow. The loops never clamp dt. -/
theorem frameDt_unclamped :
    frameDt 0 1000 = 1 ∧ ¬ frameDt 0 1000 ≤ 1 / 10 ∧
      heatIntegrate true 0 (frameDt 0 1000) = 11 / 20 := by
  have h1 : frameDt 0 1000 = 1 := by norm_num [frameDt]
  refine ⟨h1, by rw [h1]; norm_num, ?_⟩
  rw [h1]
  unfold heatIntegrate clamp
  norm_num

/-- The timed actions scheduled by the EchoOrb listen-phase effect
(App.tsx 383-396): the pulse is set to 1 (with a tone and a vibration cue)
immediately, set back to 0 after 300ms, and the phase is set to tap
intervalMs after that. -/
inductive ListenAction
  | pulseOn
  | pulseOff
  | phaseTap
deriving DecidableEq, Repr

/-- The schedule (time in ms from the start of the listen phase, paired
with the action) produced by the listen effect. -/
def listenSchedule (intervalMs : ℚ) : List (ℚ × ListenAction) :=
  [(0, .pulseOn), (300, .pulseOff), (300 + intervalMs, .phaseTap)]

/-- An action the player perceives as a cue: the two pulse changes. The
phase transition itself is not a cue. -/
def isCue : ListenAction → Bool
  | .pulseOn => true
  | .pulseOff => true
  | .phaseTap => false

/-- C8 counterexample: at intervalMs = 800 the listen phase issues exactly
two cue events, at 0ms and 300ms — a single 300ms pulse — so no two cues
are separated by the 800ms interval; the interval is not demonstrated via
two cues separated by it. -/
theorem listen_single_cue :
    ((listenSchedule 800).filter (fun e => isCue e.2)).map Prod.fst = [0, 300] ∧
      ¬ ∃ p ∈ (listenSchedule 800).filter (fun e => isCue e.2),
        ∃ q ∈ (listenSchedule 800).filter (fun e => isCue e.2),
          q.1 - p.1 = 800 := by
  constructor
  · rfl
  · intro ⟨p, hp, q, hq, hpq⟩
    have hps : p = ((0 : ℚ), ListenAction.pulseOn) ∨
        p = ((300 : ℚ), ListenAction.pulseOff) := by
      simpa [listenSchedule, isCue] using hp
    have hqs : q = ((0 : ℚ), ListenAction.pulseOn) ∨
        q = ((300 : ℚ), ListenAction.pulseOff) := by
      simpa [listenSchedule, isCue] using hq
    rcases hps with h | h <;> rcases hqs with h2 | h2 <;>
      rw [h, h2] at hpq <;> norm_num at hpq

/-- C8 (amended): in every listen cycle the interval is demonstrated via a
single pulse cue — pulse on (with a tone) at 0ms and off at 300ms — and the
transition to tap is scheduled exactly intervalMs after the pulse turns
off, at 300 + intervalMs, strictly after both cue events; intervalMs is
re-randomized each cycle by rand(500, 1400), which always lies in
[500, 1400). -/
theorem listen_cue_then_tap (iv r : ℚ) (hiv : 0 < iv) (hr0 : 0 ≤ r)
    (hr1 : r < 1) :
    listenSchedule iv = [(0, .pulseOn), (300, .pulseOff),
      (300 + iv, .phaseTap)] ∧
    (∀ p ∈ listenSchedule iv, isCue p.2 = true → p.1 < 300 + iv) ∧
    (300 + iv) - 300 = iv ∧
    500 ≤ rand 500 1400 r ∧ rand 500 1400 r < 1400 := by
  refine ⟨rfl, ?_, by ring, ?_, ?_⟩
  · intro p hp hcue
    have hps : p = ((0 : ℚ), ListenAction.pulseOn) ∨
        p = ((300 : ℚ), ListenAction.pulseOff) ∨
        p = (300 + iv, ListenAction.phaseTap) := by
      simpa [listenSchedule] using hp
    rcases hps with h | h | h
    · subst h
      show (0 : ℚ) < 300 + iv
      linarith
    · subst h
      show (300 : ℚ) < 300 + iv
      linarith
    · subst h
      simp [isCue] at hcue
  · unfold rand
    nlinarith
  · unfold rand
    nlinarith

/-- Witness for listen_cue_then_tap at intervalMs = 800 and random draw
1/2: the freshly randomized interval rand(500, 1400, 1/2) = 950 lies in
[500, 1400), and the tap transition of the 800ms cycle is scheduled after
every cue. -/
theorem listen_cue_then_tap_witness :
    500 ≤ rand 500 1400 (1 / 2) ∧ rand 500 1400 (1 / 2) < 1400 ∧
      (∀ p ∈ listenSchedule 800, isCue p.2 = true → p.1 < 300 + 800) :=
  ⟨(listen_cue_then_tap 800 (1 / 2) (by norm_num) (by norm_num)
      (by norm_num)).2.2.2.1,
   (listen_cue_then_tap 800 (1 / 2) (by norm_num) (by norm_num)
      (by norm_num)).2.2.2.2,
   (listen_cue_then_tap 800 (1 / 2) (by norm_num) (by norm_num)
      (by norm_num)).2.1⟩

/-- Kinds of deferred callbacks scheduled by the Heartbeat sync effect
(App.tsx 594-600): the 180ms pulse-off timeout and the next-beat
reschedule. -/
inductive TimerKind
  | hbPulseOff
  | hbTickNext
deriving DecidableEq, Repr

/-- A system of pending timers: a fresh-id counter and the list of
scheduled, not-yet-cancelled timeouts. -/
structure TimerSys where
  nextId : ℕ
  pending : List (ℕ × TimerKind)
deriving DecidableEq, Repr

/-- setTimeout: allocate an id and add the timer to the pending set. -/
def TimerSys.schedule (σ : TimerSys) (k : TimerKind) : ℕ × TimerSys :=
  (σ.nextId, ⟨σ.nextId + 1, σ.pending ++ [(σ.nextId, k)]⟩)

/-- clearTimeout on one id. -/
def TimerSys.clear (σ : TimerSys) (id : ℕ) : TimerSys :=
  ⟨σ.nextId, σ.pending.filter (fun p => p.1 != id)⟩

/-- One beat tick of the Heartbeat sync effect (App.tsx 597). The callback
runs id = setTimeout(pulse-off, 180) and then immediately overwrites the
same variable with id = setTimeout(tick, interval); only the final value of
the id variable is visible to the cleanup. Returns the new timer system and
that final id value. -/
def hbSyncTick (σ : TimerSys) : TimerSys × ℕ :=
  let r1 := σ.schedule .hbPulseOff
  let r2 := r1.2.schedule .hbTickNext
  (r2.2, r2.1)

/-- The teardown of the sync effect (App.tsx 599): clearTimeout(id) on the
last-assigned id only. -/
def hbSyncTeardown (σ : TimerSys) (idVar : ℕ) : TimerSys :=
  σ.clear idVar

/-- C9 evaluation at the failing input: in the Heartbeat sync phase a
single beat tick followed by session teardown (exit within 180ms of the
beat) leaves the pulse-off timeout pending — the cleanup clears only the
overwritten id of the tick reschedule — so a stale timer fires after the
session is destroyed, contrary to the claim that every deferred callback
is cancelled. (EchoOrb is worse still: the 700ms result timeout of its tap
handler, App.tsx 409-413, is never stored, so no teardown can clear it.) -/
theorem stale_pulseOff_timer_survives_teardown :
    (hbSyncTeardown (hbSyncTick ⟨0, []⟩).1 (hbSyncTick ⟨0, []⟩).2).pending =
      [(0, .hbPulseOff)] := by
  rfl

end WarmPulse
